import Mathlib

/-!
Shallow embedding of the Agent Recommendation & Fairness Engine of the
open-pair repository (backend/app/ml/agent_scorer.py and
backend/app/services/fairness_service.py), together with theorems settling
the specification claims about it.

Modelling conventions:
- Python floats are modelled as rationals; every numeric literal in the
  source is an exact decimal, so rational arithmetic is exact.
- Datetimes are modelled as rational day counts; timedelta(days=n) is the
  rational n, and the .days accessor of a timedelta is the integer floor
  of the day difference (Python timedelta normalisation floors).
- The SQLAlchemy session is modelled as a DB record of lists; a filtered
  query is a List.filter or List.countP, .first() is List.find?, a join is
  a nested count, and order_by(desc).first() on start_time is the maximum
  start_time of the filtered rows (only start_time of that row is used).
- JSON columns that may be NULL (areas_of_expertise, buyer_price_ranges)
  are modelled as lists, with the empty list standing for NULL, matching
  the `or []` coercion in the source. Dict entries that may be absent
  (the min/max keys of a price range, the fairness keys of a reasoning
  dict) are modelled as Option fields.
-/

namespace OpenPair

/-- Clamp to the unit interval, as the Python idiom min(max(x, 0.0), 1.0);
the float literals 0.0 and 1.0 are the rationals 0 and 1. -/
def clamp01 (x : ℚ) : ℚ := min (max x 0) 1

/-- Buyer price range dict; the source checks that both keys are present. -/
structure PriceRange where
  lo : Option ℚ
  hi : Option ℚ
deriving DecidableEq, Repr

/-- Agent row (the columns the engine reads). -/
structure Agent where
  id : Nat
  name : String
  experience_years : Int
  areas_of_expertise : List String
  buyer_price_ranges : List PriceRange
  is_active : Bool
deriving DecidableEq, Repr

/-- Listing row (the columns the engine reads). -/
structure Listing where
  id : Nat
  zip_code : String
  price : ℚ
deriving DecidableEq, Repr

/-- OpenHouse row (the columns the engine reads). -/
structure OpenHouse where
  id : Nat
  listing_id : Nat
  host_agent_id : Option Nat
  start_time : ℚ
  status : String
  attendee_count : Nat
  leads_generated : Nat
  follow_ups_scheduled : Nat
  offers_received : Nat
deriving DecidableEq, Repr

/-- AgentPerformance row (the columns the engine reads). -/
structure AgentPerformance where
  agent_id : Nat
  period_start : ℚ
  open_houses_hosted : Int
  total_attendees : Int
  total_leads : Int
  total_offers : Int
  average_feedback_score : ℚ
deriving DecidableEq, Repr

/-- AgentRecommendation row (the columns the engine reads). -/
structure AgentRecommendation where
  id : Nat
  open_house_id : Nat
  agent_id : Nat
  was_selected : Bool
deriving DecidableEq, Repr

/-- Read-only data handle standing for the SQLAlchemy session. -/
structure DB where
  agents : List Agent
  listings : List Listing
  openHouses : List OpenHouse
  performances : List AgentPerformance
  recommendations : List AgentRecommendation
deriving Repr

/-- db.query(Agent).filter(Agent.id == aid).first() -/
def findAgent (db : DB) (aid : Nat) : Option Agent :=
  db.agents.find? (fun a => a.id == aid)

/-- Reasoning dict built by generate_reasoning and extended (copy plus four
added keys) by FairnessService.apply_fairness_adjustments; the four keys
that only the fairness layer writes are Option fields, none when absent. -/
structure Reasoning where
  score : ℚ
  key_factors : List String
  experience_years : Int
  conversion_rate : ℚ
  area_familiarity : Bool
  recent_activity : Int
  fairness_score : Option ℚ
  fairness_factors : Option (List String)
  opportunities_30_days : Option Nat
  agent_tier : Option String
deriving DecidableEq, Repr

/-- AgentScoreDetails pydantic model (field-wise equality, as pydantic). -/
structure AgentScoreDetails where
  agent_id : Nat
  agent_name : String
  score : ℚ
  confidence : ℚ
  reasoning : Reasoning
  availability_confirmed : Bool
deriving DecidableEq, Repr

namespace AgentScoringEngine

/-- Feature dict produced by extract_features; every value is a float in the
source, hence a rational here. -/
structure FeatureRecord where
  experience_years : ℚ
  is_active : ℚ
  total_open_houses_hosted : ℚ
  avg_attendees_per_event : ℚ
  conversion_rate : ℚ
  success_rate : ℚ
  average_feedback_score : ℚ
  area_familiarity : ℚ
  price_range_match : ℚ
  recent_activity : ℚ
  recent_hosting_frequency : ℚ
  experience_tier : ℚ
deriving DecidableEq, Repr

/-- AgentScoringEngine.extract_features. The performance query keeps rows
with period_start >= open_house_datetime - 365 days (the source puts no
upper bound on period_start), and the two recency queries keep open houses
with start_time >= open_house_datetime - 30 days (again no upper bound).
np.mean of the empty list is NaN, and the source replaces NaN by 3.0, so the
feedback mean is modelled as 3 when no positive feedback rows exist. -/
def extract_features (agent : Agent) (listing : Listing)
    (open_house_datetime : ℚ) (db : DB) : FeatureRecord :=
  let performance := db.performances.filter (fun p =>
    p.agent_id == agent.id && decide (open_house_datetime - 365 ≤ p.period_start))
  let total_hosted : Int := (performance.map AgentPerformance.open_houses_hosted).sum
  let total_attendees : Int := (performance.map AgentPerformance.total_attendees).sum
  let total_leads : Int := (performance.map AgentPerformance.total_leads).sum
  let total_offers : Int := (performance.map AgentPerformance.total_offers).sum
  let positive_feedback := (performance.filter (fun p =>
    decide (0 < p.average_feedback_score))).map AgentPerformance.average_feedback_score
  let recent_activity := db.openHouses.countP (fun oh =>
    oh.host_agent_id == some agent.id
      && decide (open_house_datetime - 30 ≤ oh.start_time)
      && oh.status == "Completed")
  let last_30_days_hosted := db.openHouses.countP (fun oh =>
    oh.host_agent_id == some agent.id
      && decide (open_house_datetime - 30 ≤ oh.start_time))
  { experience_years := (agent.experience_years : ℚ)
    is_active := if agent.is_active then 1 else 0
    total_open_houses_hosted := if performance.isEmpty then 0 else (total_hosted : ℚ)
    avg_attendees_per_event :=
      if performance.isEmpty then 0
      else (total_attendees : ℚ) / ((max total_hosted 1 : Int) : ℚ)
    conversion_rate :=
      if performance.isEmpty then 0
      else (total_leads : ℚ) / ((max total_attendees 1 : Int) : ℚ)
    success_rate :=
      if performance.isEmpty then 0
      else (total_offers : ℚ) / ((max total_leads 1 : Int) : ℚ)
    average_feedback_score :=
      if performance.isEmpty then 3
      else if positive_feedback.isEmpty then 3
      else positive_feedback.sum / (positive_feedback.length : ℚ)
    area_familiarity := if listing.zip_code ∈ agent.areas_of_expertise then 1 else 0
    price_range_match :=
      if agent.buyer_price_ranges.any (fun pr =>
        match pr.lo, pr.hi with
        | some lo, some hi => decide (lo ≤ listing.price) && decide (listing.price ≤ hi)
        | _, _ => false) then 1 else 0
    recent_activity := (recent_activity : ℚ)
    recent_hosting_frequency := (last_30_days_hosted : ℚ)
    experience_tier :=
      if agent.experience_years < 2 then 1
      else if agent.experience_years < 5 then 2 else 3 }

/-- AgentScoringEngine.rule_based_score. -/
def rule_based_score (features : FeatureRecord) : ℚ :=
  let score : ℚ := 0.5
  let score := score + features.experience_years * 0.02
  let score := score + features.conversion_rate * 0.3
  let score := score + features.success_rate * 0.2
  let score := score + (features.average_feedback_score - 3.0) * 0.1
  let score := score + features.area_familiarity * 0.15
  let score := score + features.price_range_match * 0.1
  let score := score + min (features.recent_activity * 0.05) 0.1
  clamp01 score

/-- AgentScoringEngine.apply_fairness_adjustments (the score-level one, with
the if/elif frequency penalty and the junior opportunity boost). -/
def apply_fairness_adjustments (score : ℚ) (features : FeatureRecord) : ℚ :=
  let adjusted_score := score
  let adjusted_score :=
    if 3 < features.recent_hosting_frequency then adjusted_score * 0.8
    else if 5 < features.recent_hosting_frequency then adjusted_score * 0.6
    else adjusted_score
  let adjusted_score :=
    if features.experience_tier = 1.0 ∧ features.total_open_houses_hosted < 5 then
      adjusted_score + 0.1
    else adjusted_score
  clamp01 adjusted_score

/-- AgentScoringEngine.calculate_success_score. -/
def calculate_success_score (oh : OpenHouse) (was_selected : Bool) : ℚ :=
  if !was_selected then 0 else
  let attendee_score := min ((oh.attendee_count : ℚ) / 20.0) 1.0
  let lead_score := min ((oh.leads_generated : ℚ) / 5.0) 1.0
  let follow_up_score := min ((oh.follow_ups_scheduled : ℚ) / 3.0) 1.0
  let offer_score := min ((oh.offers_received : ℚ) / 1.0) 1.0
  min (attendee_score * 0.2 + lead_score * 0.3 + follow_up_score * 0.3 + offer_score * 0.2) 1.0

/-- One labelled training row; the was_selected column is dropped again
before fitting, and the dummy row of the cold-start path does not carry it,
hence the Option. -/
structure TrainRow where
  features : FeatureRecord
  target : ℚ
  was_selected : Option Bool
deriving DecidableEq, Repr

/-- Dummy feature dict substituted by prepare_training_data when no
labelled data exists. -/
def dummy_features : FeatureRecord :=
  { experience_years := 0, is_active := 1, total_open_houses_hosted := 0,
    avg_attendees_per_event := 0, conversion_rate := 0, success_rate := 0,
    average_feedback_score := 3.0, area_familiarity := 0, price_range_match := 0,
    recent_activity := 0, recent_hosting_frequency := 0, experience_tier := 1.0 }

/-- Labelled rows gathered by prepare_training_data before the dummy-row
fallback: every Completed open house whose listing resolves contributes one
row per recommendation whose agent resolves. -/
def training_rows (db : DB) : List TrainRow :=
  (db.openHouses.filter (fun oh => oh.status == "Completed")).flatMap (fun oh =>
    match db.listings.find? (fun li => li.id == oh.listing_id) with
    | none => []
    | some listing =>
      (db.recommendations.filter (fun r => r.open_house_id == oh.id)).filterMap (fun r =>
        match findAgent db r.agent_id with
        | none => none
        | some agent =>
          some { features := extract_features agent listing oh.start_time db,
                 target := calculate_success_score oh r.was_selected,
                 was_selected := some r.was_selected }))

/-- AgentScoringEngine.prepare_training_data: the gathered rows, or the
single dummy row when none exist. -/
def prepare_training_data (db : DB) : List TrainRow :=
  let training_data := training_rows db
  if training_data.isEmpty then
    [{ features := dummy_features, target := 0.5, was_selected := none }]
  else training_data

/-- Training summary returned by train_model. The xgboost branch (10 or
more rows) fits a floating-point regressor whose statistics are outside
this embedding; only the branch taken and the rule-based summary fields
are modelled. -/
inductive TrainOutcome where
  | rule_based (training_samples : Nat)
  | xgboost
deriving DecidableEq, Repr

/-- AgentScoringEngine.train_model: with fewer than 10 prepared rows the
engine sets self.model to the rule-based marker and reports the row count. -/
def train_model (db : DB) : TrainOutcome :=
  let X := prepare_training_data db
  if X.length < 10 then TrainOutcome.rule_based X.length
  else TrainOutcome.xgboost

end AgentScoringEngine

namespace FairnessService

/-- FairnessService.get_agent_tier. -/
def get_agent_tier (agent : Agent) : String :=
  if agent.experience_years < 2 then "junior"
  else if agent.experience_years < 5 then "mid"
  else "senior"

/-- FairnessService min_opportunities_per_month configuration; only ever
looked up at the three tier names produced by get_agent_tier. -/
def min_opportunities_per_month (tier : String) : Nat :=
  if tier == "junior" then 2 else if tier == "mid" then 3 else 4

/-- FairnessService max_opportunities_per_month configuration. -/
def max_opportunities_per_month (tier : String) : Nat :=
  if tier == "junior" then 8 else if tier == "mid" then 12 else 16

/-- Result dict of get_opportunity_counts. -/
structure OpportunityCounts where
  hosted_30_days : Nat
  hosted_90_days : Nat
  recommended_30_days : Nat
deriving DecidableEq, Repr

/-- FairnessService.get_opportunity_counts: both hosting windows are bounded
on both sides (reference_date - N <= start_time <= reference_date), and the
recommendation count is an inner join of AgentRecommendation with OpenHouse
on open_house_id, filtered to the same 30-day window. -/
def get_opportunity_counts (agent_id : Nat) (reference_date : ℚ) (db : DB) :
    OpportunityCounts :=
  let thirty_days_ago := reference_date - 30
  let ninety_days_ago := reference_date - 90
  { hosted_30_days := db.openHouses.countP (fun oh =>
      oh.host_agent_id == some agent_id
        && decide (thirty_days_ago ≤ oh.start_time)
        && decide (oh.start_time ≤ reference_date))
    hosted_90_days := db.openHouses.countP (fun oh =>
      oh.host_agent_id == some agent_id
        && decide (ninety_days_ago ≤ oh.start_time)
        && decide (oh.start_time ≤ reference_date))
    recommended_30_days :=
      ((db.recommendations.filter (fun r => r.agent_id == agent_id)).map (fun r =>
        db.openHouses.countP (fun oh =>
          oh.id == r.open_house_id
            && decide (thirty_days_ago ≤ oh.start_time)
            && decide (oh.start_time ≤ reference_date)))).sum }

/-- Start time of the row returned by the last_hosted query of
calculate_fairness_score: the open houses of the agent with status Completed
or Scheduled, ordered by start_time descending, first row. Only its
start_time is read, so the query is modelled by the maximal start_time of
the filtered rows (none when the filter is empty). The filter carries no
date bound, so a Scheduled open house after the reference date also counts. -/
def last_hosted_start (agent : Agent) (db : DB) : Option ℚ :=
  ((db.openHouses.filter (fun oh =>
    oh.host_agent_id == some agent.id
      && (oh.status == "Completed" || oh.status == "Scheduled"))).map
        OpenHouse.start_time).max?

/-- FairnessService.calculate_fairness_score. The timedelta .days accessor
is the integer floor of the rational day difference. -/
def calculate_fairness_score (agent : Agent) (reference_date : ℚ) (db : DB) : ℚ :=
  let tier := get_agent_tier agent
  let counts := get_opportunity_counts agent.id reference_date db
  let fairness_score : ℚ := 0.5
  let min_opportunities := min_opportunities_per_month tier
  let fairness_score :=
    if counts.hosted_30_days < min_opportunities then
      fairness_score + ((min_opportunities - counts.hosted_30_days : Nat) : ℚ) * 0.15
    else fairness_score
  let max_opportunities := max_opportunities_per_month tier
  let fairness_score :=
    if max_opportunities < counts.hosted_30_days then
      fairness_score - ((counts.hosted_30_days - max_opportunities : Nat) : ℚ) * 0.1
    else fairness_score
  let fairness_score :=
    if counts.recommended_30_days < 5 then fairness_score + 0.1 else fairness_score
  let fairness_score :=
    match last_hosted_start agent db with
    | some last_start =>
      let days_since_last : Int := ⌊reference_date - last_start⌋
      if 14 < days_since_last then
        fairness_score + min ((days_since_last : ℚ) * 0.01) 0.2
      else fairness_score
    | none => fairness_score + 0.3
  clamp01 fairness_score

/-- Body of the per-candidate loop of
FairnessService.apply_fairness_adjustments: none when the agent id does not
resolve (the candidate is skipped), otherwise the rebuilt AgentScoreDetails
with the blended score and the fairness-annotated reasoning. -/
def adjust_candidate (reference_date : ℚ) (db : DB)
    (score_detail : AgentScoreDetails) : Option AgentScoreDetails :=
  match findAgent db score_detail.agent_id with
  | none => none
  | some agent =>
    let fairness_score := calculate_fairness_score agent reference_date db
    let adjusted_score := score_detail.score * 0.7 + fairness_score * 0.3
    let tier := get_agent_tier agent
    let counts := get_opportunity_counts agent.id reference_date db
    let fairness_reasoning :=
      (if counts.hosted_30_days < min_opportunities_per_month tier then
        ["Below minimum monthly opportunities"] else [])
      ++ (if counts.recommended_30_days < 5 then ["Few recent recommendations"] else [])
    some { agent_id := score_detail.agent_id
           agent_name := score_detail.agent_name
           score := adjusted_score
           confidence := score_detail.confidence
           reasoning := { score_detail.reasoning with
                          fairness_score := some fairness_score
                          fairness_factors := some fairness_reasoning
                          opportunities_30_days := some counts.hosted_30_days
                          agent_tier := some tier }
           availability_confirmed := score_detail.availability_confirmed }

/-- Descending order on scores used by the final
list.sort(key=lambda x: x.score, reverse=True). -/
def score_ge (a b : AgentScoreDetails) : Prop := b.score ≤ a.score

instance : DecidableRel score_ge := fun a b =>
  inferInstanceAs (Decidable (b.score ≤ a.score))

instance : IsTotal AgentScoreDetails score_ge := ⟨fun a b => le_total b.score a.score⟩

instance : IsTrans AgentScoreDetails score_ge :=
  ⟨fun _ _ _ h1 h2 => le_trans h2 h1⟩

/-- FairnessService.apply_fairness_adjustments: adjust each candidate whose
agent resolves (skipping the rest), then sort by adjusted score descending.
A stable sort models stable Python list.sort. -/
def apply_fairness_adjustments (agent_scores : List AgentScoreDetails)
    (reference_date : ℚ) (db : DB) : List AgentScoreDetails :=
  List.insertionSort score_ge
    (agent_scores.filterMap (adjust_candidate reference_date db))

/-- One step of the first diversity pass: take the candidate when its agent
resolves, its tier is not yet used and fewer than 3 slots are filled. -/
def diversity_step (db : DB) (st : List AgentScoreDetails × List String)
    (score_detail : AgentScoreDetails) : List AgentScoreDetails × List String :=
  match findAgent db score_detail.agent_id with
  | some agent =>
    let tier := get_agent_tier agent
    if tier ∉ st.2 ∧ st.1.length < 3 then (st.1 ++ [score_detail], st.2 ++ [tier])
    else st
  | none => st

/-- First pass of ensure_diversity_in_recommendations. -/
def diversity_pass1 (db : DB) (agent_scores : List AgentScoreDetails) :
    List AgentScoreDetails × List String :=
  agent_scores.foldl (diversity_step db) ([], [])

/-- One step of the second diversity pass: append the candidate when it is
not already chosen (pydantic value equality) and fewer than 3 slots are
filled. -/
def fill_step (acc : List AgentScoreDetails) (score_detail : AgentScoreDetails) :
    List AgentScoreDetails :=
  if score_detail ∉ acc ∧ acc.length < 3 then acc ++ [score_detail] else acc

/-- Second pass of ensure_diversity_in_recommendations. -/
def diversity_pass2 (agent_scores diverse : List AgentScoreDetails) :
    List AgentScoreDetails :=
  agent_scores.foldl fill_step diverse

/-- Third loop of ensure_diversity_in_recommendations; remaining_slots is
computed once, before the loop, and the loop index is compared against it. -/
def diversity_pass3 (agent_scores diverse : List AgentScoreDetails) :
    List AgentScoreDetails :=
  let remaining_slots : Int := 3 - (diverse.length : Int)
  agent_scores.enum.foldl (fun acc p =>
    if p.2 ∉ acc ∧ (p.1 : Int) < remaining_slots then acc ++ [p.2] else acc) diverse

/-- FairnessService.ensure_diversity_in_recommendations: lists of at most 3
candidates are returned as-is; otherwise the two passes and the third loop
run and the result is truncated to 3. -/
def ensure_diversity_in_recommendations (agent_scores : List AgentScoreDetails)
    (db : DB) : List AgentScoreDetails :=
  if agent_scores.length ≤ 3 then agent_scores
  else
    (diversity_pass3 agent_scores
      (diversity_pass2 agent_scores (diversity_pass1 db agent_scores).1)).take 3

end FairnessService

/-- Fairness formula as the specification states it: a base of 0.5, a
deficit boost of 0.15 per opportunity below the tier minimum, a penalty of
0.10 per opportunity above the tier maximum, a 0.10 boost under 5
recommendations, and a recency term keyed on the latest Completed or
Scheduled open house (0.30 when none exists, min(0.01 x days, 0.20) when
more than 14 days have passed since it), finally clamped to the unit
interval. -/
def fairness_formula (agent : Agent) (reference_date : ℚ) (db : DB) : ℚ :=
  let tier := FairnessService.get_agent_tier agent
  let counts := FairnessService.get_opportunity_counts agent.id reference_date db
  let deficit_boost : ℚ :=
    if counts.hosted_30_days < FairnessService.min_opportunities_per_month tier then
      ((FairnessService.min_opportunities_per_month tier - counts.hosted_30_days : Nat) : ℚ)
        * 0.15
    else 0
  let excess_penalty : ℚ :=
    if FairnessService.max_opportunities_per_month tier < counts.hosted_30_days then
      ((counts.hosted_30_days - FairnessService.max_opportunities_per_month tier : Nat) : ℚ)
        * 0.1
    else 0
  let few_recommendations_boost : ℚ :=
    if counts.recommended_30_days < 5 then 0.1 else 0
  let recency_boost : ℚ :=
    match FairnessService.last_hosted_start agent db with
    | some last_start =>
      if 14 < ⌊reference_date - last_start⌋ then
        min ((⌊reference_date - last_start⌋ : ℚ) * 0.01) 0.2
      else 0
    | none => 0.3
  clamp01 (0.5 + deficit_boost - excess_penalty + few_recommendations_boost + recency_boost)

/-! Concrete inputs used by the scenario theorems, witnesses and
counterexamples below. -/

/-- Reasoning dict with neutral contents, standing for an arbitrary
scorer-produced reasoning payload. -/
def blank_reasoning : Reasoning :=
  ⟨0, [], 0, 0, false, 0, none, none, none, none⟩

/-- Listing used by concrete feature-extraction inputs. -/
def some_listing : Listing := ⟨1, "94105", 500000⟩

/-- Brand-new junior agent of the fairness cold-start scenario. -/
def c2_agent : Agent := ⟨61, "N", 0, [], [], true⟩

/-- Data handle of the fairness cold-start scenario: no open houses, no
recommendations, no performance rows. -/
def c2_db : DB := ⟨[c2_agent], [], [], [], []⟩

/-- Agent backing the fairness-blend witness. -/
def c3w_agent : Agent := ⟨21, "W", 0, [], [], true⟩

/-- Data handle of the fairness-blend witness. -/
def c3w_db : DB := ⟨[c3w_agent], [], [], [], []⟩

/-- Candidate of the fairness-blend witness. -/
def c3w_cand : AgentScoreDetails := ⟨21, "W", 0.9, 0, blank_reasoning, true⟩

/-- Agent appearing twice in the diversity duplicate counterexample. -/
def c4_agent : Agent := ⟨7, "D", 0, [], [], true⟩

/-- Data handle of the diversity duplicate counterexample. -/
def c4_db : DB := ⟨[c4_agent], [], [], [], []⟩

/-- First candidate naming agent 7. -/
def c4_e1 : AgentScoreDetails := ⟨7, "A", 0.9, 0, blank_reasoning, true⟩

/-- Second, distinct candidate naming the same agent 7. -/
def c4_e2 : AgentScoreDetails := ⟨7, "B", 0.8, 0, blank_reasoning, true⟩

/-- Four agents of distinct ids for the diversity witness. -/
def c4w_a1 : Agent := ⟨1, "J1", 0, [], [], true⟩

/-- Second diversity-witness agent. -/
def c4w_a2 : Agent := ⟨2, "J2", 1, [], [], true⟩

/-- Third diversity-witness agent. -/
def c4w_a3 : Agent := ⟨3, "S3", 7, [], [], true⟩

/-- Fourth diversity-witness agent. -/
def c4w_a4 : Agent := ⟨4, "M4", 3, [], [], true⟩

/-- Data handle of the diversity witness. -/
def c4w_db : DB := ⟨[c4w_a1, c4w_a2, c4w_a3, c4w_a4], [], [], [], []⟩

/-- Candidate list of the diversity witness: four distinct agents. -/
def c4w_list : List AgentScoreDetails :=
  [⟨1, "J1", 0.9, 0, blank_reasoning, true⟩,
   ⟨2, "J2", 0.8, 0, blank_reasoning, true⟩,
   ⟨3, "S3", 0.7, 0, blank_reasoning, true⟩,
   ⟨4, "M4", 0.65, 0, blank_reasoning, true⟩]

/-- Junior agent (0 years) of the three-candidate diversity scenario. -/
def c5_a1 : Agent := ⟨1, "J1", 0, [], [], true⟩

/-- Second junior agent (1 year) of the three-candidate scenario. -/
def c5_a2 : Agent := ⟨2, "J2", 1, [], [], true⟩

/-- Senior agent (7 years) of the three-candidate scenario. -/
def c5_a3 : Agent := ⟨3, "S3", 7, [], [], true⟩

/-- Data handle of the three-candidate scenario. -/
def c5_db : DB := ⟨[c5_a1, c5_a2, c5_a3], [], [], [], []⟩

/-- Top-scored junior candidate, score 0.9. -/
def c5_c1 : AgentScoreDetails := ⟨1, "J1", 0.9, 0, blank_reasoning, true⟩

/-- Second junior candidate, score 0.8. -/
def c5_c2 : AgentScoreDetails := ⟨2, "J2", 0.8, 0, blank_reasoning, true⟩

/-- Senior candidate, score 0.6. -/
def c5_c3 : AgentScoreDetails := ⟨3, "S3", 0.6, 0, blank_reasoning, true⟩

/-- Agent of the unbounded-window counterexample. -/
def c7_agent : Agent := ⟨11, "G", 0, [], [], true⟩

/-- Data handle whose only open house is Completed and starts 10 days after
the target datetime 0. -/
def c7_db : DB := ⟨[c7_agent], [], [⟨1, 1, some 11, 10, "Completed", 0, 0, 0, 0⟩], [], []⟩

/-- Agent of the five-row training witness. -/
def c8_agent : Agent := ⟨31, "T", 0, [], [], true⟩

/-- Data handle with one Completed open house, its listing, and five
recommendations for it, giving exactly five labelled training rows. -/
def c8_db : DB :=
  ⟨[c8_agent], [⟨1, "94105", 500000⟩],
   [⟨1, 1, some 31, 0, "Completed", 0, 0, 0, 0⟩],
   [],
   [⟨1, 1, 31, true⟩, ⟨2, 1, 31, false⟩, ⟨3, 1, 31, false⟩, ⟨4, 1, 31, true⟩,
    ⟨5, 1, 31, false⟩]⟩

/-- Data handle with no rows at all: zero labelled training rows. -/
def c8_empty_db : DB := ⟨[], [], [], [], []⟩

/-- Agent of the neutral-defaults witness, with no history at all. -/
def c9w_agent : Agent := ⟨51, "E", 0, [], [], true⟩

/-- Data handle with no performance rows. -/
def c9w_db : DB := ⟨[c9w_agent], [], [], [], []⟩

/-- Data handle whose single performance row for agent 51 has feedback 0,
so the positive-feedback mean is undefined. -/
def c9w2_db : DB := ⟨[c9w_agent], [], [], [⟨51, 0, 2, 10, 1, 0, 0⟩], []⟩

/-- Agent of the future-performance counterexample. -/
def c9c_agent : Agent := ⟨9, "F", 0, [], [], true⟩

/-- Data handle whose single performance row for agent 9 is dated 10 days
after the target datetime 0 and records 7 hosted open houses. -/
def c9c_db : DB := ⟨[c9c_agent], [], [], [⟨9, 10, 7, 0, 0, 0, 0⟩], []⟩

/-- Agent of the dropped-candidate example. -/
def c10_agent : Agent := ⟨41, "H", 0, [], [], true⟩

/-- Data handle resolving only agent 41. -/
def c10_db : DB := ⟨[c10_agent], [], [], [], []⟩

/-- Two candidates, of which only the first names a resolvable agent. -/
def c10_list : List AgentScoreDetails :=
  [⟨41, "H", 0.9, 0, blank_reasoning, true⟩,
   ⟨42, "X", 0.8, 0, blank_reasoning, true⟩]

/-! General helper lemmas. -/

/-- Unit-interval bound of the clamp. -/
lemma clamp01_nonneg (x : ℚ) : 0 ≤ clamp01 x :=
  le_min (le_max_right _ _) zero_le_one

/-- Upper unit-interval bound of the clamp. -/
lemma clamp01_le_one (x : ℚ) : clamp01 x ≤ 1 := min_le_right _ _

/-- Congruence for the clamp. -/
lemma clamp01_congr {x y : ℚ} (h : x = y) : clamp01 x = clamp01 y := by rw [h]

/-- Closed form of rule_based_score, unfolding the accumulation chain. -/
lemma rule_based_score_def (f : AgentScoringEngine.FeatureRecord) :
    AgentScoringEngine.rule_based_score f =
      clamp01 (0.5 + f.experience_years * 0.02 + f.conversion_rate * 0.3
        + f.success_rate * 0.2 + (f.average_feedback_score - 3.0) * 0.1
        + f.area_familiarity * 0.15 + f.price_range_match * 0.1
        + min (f.recent_activity * 0.05) 0.1) := rfl

/-- Splitting a count by a second Boolean test. -/
lemma countP_split {α : Type} (p q : α → Bool) (l : List α) :
    l.countP p = l.countP (fun x => p x && q x) + l.countP (fun x => p x && !q x) := by
  induction l with
  | nil => rfl
  | cons a t ih =>
    simp only [List.countP_cons]
    cases hp : p a <;> cases hq : q a <;> simp [hp, hq] <;> omega

/-- Pointwise-equal tests count the same rows. -/
lemma countP_congr_mem {α : Type} {p q : α → Bool} {l : List α}
    (h : ∀ x ∈ l, p x = q x) : l.countP p = l.countP q := by
  induction l with
  | nil => rfl
  | cons a t ih =>
    simp only [List.countP_cons]
    rw [h a (List.mem_cons_self a t), ih (fun x hx => h x (List.mem_cons_of_mem a hx))]

/-- Length of a filterMap as a count of the inputs it keeps. -/
lemma length_filterMap_eq_countP {α β : Type} (f : α → Option β) (l : List α) :
    (l.filterMap f).length = l.countP (fun x => (f x).isSome) := by
  induction l with
  | nil => rfl
  | cons a t ih =>
    cases h : f a <;> simp [List.filterMap_cons, h, List.countP_cons, ih]

/-! C1. -/

/-- C1: for every feature record, the cold-start rule-based score equals
0.5 + 0.02 x experience_years + 0.3 x conversion_rate + 0.2 x success_rate
+ 0.1 x (average_feedback_score - 3.0) + 0.15 x area_familiarity
+ 0.1 x price_range_match + min(0.05 x recent_activity, 0.1), clamped to
the unit interval, and therefore always lies in the unit interval. -/
theorem rule_based_score_spec (f : AgentScoringEngine.FeatureRecord) :
    AgentScoringEngine.rule_based_score f =
      clamp01 (0.5 + 0.02 * f.experience_years + 0.3 * f.conversion_rate
        + 0.2 * f.success_rate + 0.1 * (f.average_feedback_score - 3.0)
        + 0.15 * f.area_familiarity + 0.1 * f.price_range_match
        + min (0.05 * f.recent_activity) 0.1)
    ∧ 0 ≤ AgentScoringEngine.rule_based_score f
    ∧ AgentScoringEngine.rule_based_score f ≤ 1 := by
  refine ⟨?_, ?_, ?_⟩
  · rw [rule_based_score_def]
    refine clamp01_congr ?_
    rw [show min (f.recent_activity * 0.05) 0.1 = min (0.05 * f.recent_activity) 0.1 by
      rw [mul_comm]]
    ring
  · rw [rule_based_score_def]; exact clamp01_nonneg _
  · rw [rule_based_score_def]; exact clamp01_le_one _

/-! C2. -/

/-- C2: calculate_fairness_score equals the documented formula (base 0.5,
0.15 per missing opportunity below the tier minimum, minus 0.10 per excess
above the maximum, plus 0.10 under 5 recommendations, plus the recency or
never-hosted term, clamped), and on the cold-start scenario agent
(0 years, no history, no open houses) it yields the value of that formula,
namely clamp01(0.5 + 2 x 0.15 + 0.1 + 0.3) = 1. -/
theorem calculate_fairness_score_spec :
    (∀ (agent : Agent) (reference_date : ℚ) (db : DB),
      FairnessService.calculate_fairness_score agent reference_date db
        = fairness_formula agent reference_date db)
    ∧ FairnessService.calculate_fairness_score c2_agent 0 c2_db = 1
    ∧ fairness_formula c2_agent 0 c2_db = clamp01 (0.5 + 2 * 0.15 + 0.1 + 0.3) := by
  refine ⟨?_, ?_, ?_⟩
  · intro agent reference_date db
    simp only [FairnessService.calculate_fairness_score, fairness_formula]
    rcases h : FairnessService.last_hosted_start agent db with _ | s <;>
      simp only [h] <;> split_ifs <;> exact clamp01_congr (by ring)
  · norm_num [FairnessService.calculate_fairness_score,
      FairnessService.get_opportunity_counts, FairnessService.get_agent_tier,
      FairnessService.min_opportunities_per_month,
      FairnessService.max_opportunities_per_month,
      FairnessService.last_hosted_start, c2_agent, c2_db, clamp01, min_def, max_def]
  · norm_num [fairness_formula, FairnessService.get_opportunity_counts,
      FairnessService.get_agent_tier, FairnessService.min_opportunities_per_month,
      FairnessService.max_opportunities_per_month,
      FairnessService.last_hosted_start, c2_agent, c2_db, clamp01, min_def, max_def]

/-! C6. -/

/-- C6: in the score-level fairness adjustment, exactly one frequency
multiplier applies under the if/elif rule: x0.8 whenever
recent_hosting_frequency > 3 (including all values > 5), no multiplier
when it is at most 3, and the x0.6 branch never contributes; the junior
boost and the final clamp are unchanged. -/
theorem frequency_penalty_rule (score : ℚ) (f : AgentScoringEngine.FeatureRecord) :
    AgentScoringEngine.apply_fairness_adjustments score f =
      clamp01 ((if 3 < f.recent_hosting_frequency then score * 0.8 else score)
        + (if f.experience_tier = 1.0 ∧ f.total_open_houses_hosted < 5 then 0.1 else 0)) := by
  unfold AgentScoringEngine.apply_fairness_adjustments
  split_ifs <;> first | rfl | linarith | exact clamp01_congr (by ring)

/-! C3 and C10 helpers. -/

/-- When the agent resolves, adjust_candidate keeps the candidate and blends
its score with the fairness score. -/
lemma adjust_candidate_some (reference_date : ℚ) (db : DB) (c : AgentScoreDetails)
    (a : Agent) (ha : findAgent db c.agent_id = some a) :
    ∃ e, FairnessService.adjust_candidate reference_date db c = some e ∧
      e.agent_id = c.agent_id ∧
      e.score = c.score * 0.7
        + FairnessService.calculate_fairness_score a reference_date db * 0.3 := by
  simp only [FairnessService.adjust_candidate, ha]
  exact ⟨_, rfl, rfl, rfl⟩

/-- Conversely, every candidate kept by adjust_candidate has a resolving
agent and carries the blended score. -/
lemma adjust_candidate_inv (reference_date : ℚ) (db : DB) (c e : AgentScoreDetails)
    (he : FairnessService.adjust_candidate reference_date db c = some e) :
    ∃ a, findAgent db c.agent_id = some a ∧ e.agent_id = c.agent_id ∧
      e.score = c.score * 0.7
        + FairnessService.calculate_fairness_score a reference_date db * 0.3 := by
  cases ha : findAgent db c.agent_id with
  | none =>
    simp only [FairnessService.adjust_candidate, ha] at he
    exact Option.noConfusion he
  | some a =>
    simp only [FairnessService.adjust_candidate, ha, Option.some.injEq] at he
    exact ⟨a, rfl, by rw [← he], by rw [← he]⟩

/-! C3. -/

/-- C3: apply_fairness_adjustments gives every kept candidate the adjusted
score 0.7 x raw score + 0.3 x fairness score of its agent, every candidate
whose agent resolves is kept with that score, and the returned list is
sorted by adjusted score in descending order. -/
theorem apply_fairness_adjustments_blend_sorted (l : List AgentScoreDetails)
    (reference_date : ℚ) (db : DB) :
    List.Sorted FairnessService.score_ge
      (FairnessService.apply_fairness_adjustments l reference_date db)
    ∧ (∀ c ∈ l, ∀ a : Agent, findAgent db c.agent_id = some a →
        ∃ e ∈ FairnessService.apply_fairness_adjustments l reference_date db,
          e.agent_id = c.agent_id ∧
          e.score = 0.7 * c.score
            + 0.3 * FairnessService.calculate_fairness_score a reference_date db)
    ∧ (∀ e ∈ FairnessService.apply_fairness_adjustments l reference_date db,
        ∃ c ∈ l, ∃ a : Agent, findAgent db c.agent_id = some a ∧
          e.agent_id = c.agent_id ∧
          e.score = 0.7 * c.score
            + 0.3 * FairnessService.calculate_fairness_score a reference_date db) := by
  unfold FairnessService.apply_fairness_adjustments
  refine ⟨List.sorted_insertionSort _ _, ?_, ?_⟩
  · intro c hc a ha
    obtain ⟨e, he, hid, hsc⟩ := adjust_candidate_some reference_date db c a ha
    refine ⟨e, ?_, hid, by rw [hsc]; ring⟩
    rw [(List.perm_insertionSort FairnessService.score_ge _).mem_iff]
    exact List.mem_filterMap.mpr ⟨c, hc, he⟩
  · intro e he
    rw [(List.perm_insertionSort FairnessService.score_ge _).mem_iff] at he
    obtain ⟨c, hc, hce⟩ := List.mem_filterMap.mp he
    obtain ⟨a, ha, hid, hsc⟩ := adjust_candidate_inv reference_date db c e hce
    exact ⟨c, hc, a, ha, hid, by rw [hsc]; ring⟩

/-- Witness for C3 at a concrete one-candidate input. -/
theorem apply_fairness_adjustments_blend_sorted_witness :
    ∃ e ∈ FairnessService.apply_fairness_adjustments [c3w_cand] 0 c3w_db,
      e.agent_id = c3w_cand.agent_id ∧
      e.score = 0.7 * c3w_cand.score
        + 0.3 * FairnessService.calculate_fairness_score c3w_agent 0 c3w_db :=
  (apply_fairness_adjustments_blend_sorted [c3w_cand] 0 c3w_db).2.1 c3w_cand
    (List.mem_singleton.mpr rfl) c3w_agent rfl

/-! C10. -/

/-- C10: apply_fairness_adjustments silently drops every candidate whose
agent id does not resolve: the output length is the count of resolvable
input candidates, and on a concrete two-candidate input with one
unresolvable agent the output has length 1. -/
theorem apply_fairness_adjustments_drops_unresolvable :
    (∀ (l : List AgentScoreDetails) (reference_date : ℚ) (db : DB),
      (FairnessService.apply_fairness_adjustments l reference_date db).length
        = l.countP (fun sd => (findAgent db sd.agent_id).isSome))
    ∧ (FairnessService.apply_fairness_adjustments c10_list 0 c10_db).length = 1
    ∧ c10_list.length = 2 := by
  have key : ∀ (l : List AgentScoreDetails) (reference_date : ℚ) (db : DB),
      (FairnessService.apply_fairness_adjustments l reference_date db).length
        = l.countP (fun sd => (findAgent db sd.agent_id).isSome) := by
    intro l reference_date db
    unfold FairnessService.apply_fairness_adjustments
    rw [(List.perm_insertionSort FairnessService.score_ge _).length_eq,
      length_filterMap_eq_countP]
    refine countP_congr_mem (fun sd _ => ?_)
    cases ha : findAgent db sd.agent_id <;>
      simp [FairnessService.adjust_candidate, ha]
  refine ⟨key, ?_, rfl⟩
  rw [key c10_list 0 c10_db]
  rfl

/-! C7. -/

/-- C7 (amended): the trailing windows of feature extraction are anchored
at the target open-house datetime (lower bound target - 30 days) but carry
no upper bound, so recent_activity splits into the Completed open houses
inside [target - 30, target] plus those starting strictly after the target,
and likewise recent_hosting_frequency for any status; the fairness-service
window of get_opportunity_counts is bounded on both sides. -/
theorem extract_features_window_unbounded (agent : Agent) (listing : Listing)
    (t : ℚ) (db : DB) :
    ((AgentScoringEngine.extract_features agent listing t db).recent_activity
      = ((db.openHouses.countP (fun oh => (oh.host_agent_id == some agent.id
            && decide (t - 30 ≤ oh.start_time) && oh.status == "Completed")
            && decide (oh.start_time ≤ t)))
        + (db.openHouses.countP (fun oh => (oh.host_agent_id == some agent.id
            && decide (t - 30 ≤ oh.start_time) && oh.status == "Completed")
            && decide (t < oh.start_time))) : ℚ))
    ∧ ((AgentScoringEngine.extract_features agent listing t db).recent_hosting_frequency
      = ((db.openHouses.countP (fun oh => (oh.host_agent_id == some agent.id
            && decide (t - 30 ≤ oh.start_time)) && decide (oh.start_time ≤ t)))
        + (db.openHouses.countP (fun oh => (oh.host_agent_id == some agent.id
            && decide (t - 30 ≤ oh.start_time)) && decide (t < oh.start_time))) : ℚ))
    ∧ ((FairnessService.get_opportunity_counts agent.id t db).hosted_30_days
      = db.openHouses.countP (fun oh => oh.host_agent_id == some agent.id
          && decide (t - 30 ≤ oh.start_time) && decide (oh.start_time ≤ t))) := by
  have hsplit : ∀ p : OpenHouse → Bool,
      db.openHouses.countP p
        = db.openHouses.countP (fun oh => p oh && decide (oh.start_time ≤ t))
          + db.openHouses.countP (fun oh => p oh && decide (t < oh.start_time)) := by
    intro p
    rw [countP_split p (fun oh => decide (oh.start_time ≤ t))]
    congr 1
    refine countP_congr_mem (fun oh _ => ?_)
    by_cases hx : oh.start_time ≤ t
    · simp [hx, not_lt.mpr hx]
    · simp [hx, not_le.mp hx]
  refine ⟨?_, ?_, rfl⟩
  · have h1 : (AgentScoringEngine.extract_features agent listing t db).recent_activity
        = ((db.openHouses.countP (fun oh => oh.host_agent_id == some agent.id
            && decide (t - 30 ≤ oh.start_time) && oh.status == "Completed") : Nat) : ℚ) := rfl
    rw [h1, hsplit]
    push_cast
    ring
  · have h2 : (AgentScoringEngine.extract_features agent listing t db).recent_hosting_frequency
        = ((db.openHouses.countP (fun oh => oh.host_agent_id == some agent.id
            && decide (t - 30 ≤ oh.start_time)) : Nat) : ℚ) := rfl
    rw [h2, hsplit]
    push_cast
    ring

/-- Counterexample for C7 as stated: with target datetime 0, a Completed
open house starting 10 days after the target is counted by recent_activity
(which therefore is 1), while the bounded trailing window
[target - 30, target] contains no open house at all. -/
theorem extract_features_counts_future_open_house :
    (AgentScoringEngine.extract_features c7_agent some_listing 0 c7_db).recent_activity = 1
    ∧ c7_db.openHouses.countP (fun oh => oh.host_agent_id == some c7_agent.id
        && decide ((0:ℚ) - 30 ≤ oh.start_time) && decide (oh.start_time ≤ (0:ℚ))
        && oh.status == "Completed") = 0
    ∧ (1:ℚ) ≠ 0 := by
  refine ⟨?_, ?_, by norm_num⟩
  · norm_num [AgentScoringEngine.extract_features, c7_agent, c7_db, some_listing]
  · norm_num [c7_agent, c7_db]

/-! C9. -/

/-- C9 (amended): whenever the performance query of extract_features (rows
with period_start at or after target - 365 days, with no upper bound) is
empty, extraction substitutes the neutral defaults, and whenever it is
nonempty but no row has positive feedback, the feedback mean defaults to
3.0. -/
theorem extract_features_neutral_defaults (agent : Agent) (listing : Listing)
    (t : ℚ) (db : DB) :
    ((db.performances.filter (fun p =>
        p.agent_id == agent.id && decide (t - 365 ≤ p.period_start))) = [] →
      ((AgentScoringEngine.extract_features agent listing t db).total_open_houses_hosted = 0
        ∧ (AgentScoringEngine.extract_features agent listing t db).avg_attendees_per_event = 0
        ∧ (AgentScoringEngine.extract_features agent listing t db).conversion_rate = 0
        ∧ (AgentScoringEngine.extract_features agent listing t db).success_rate = 0
        ∧ (AgentScoringEngine.extract_features agent listing t db).average_feedback_score = 3.0))
    ∧ ((db.performances.filter (fun p =>
        p.agent_id == agent.id && decide (t - 365 ≤ p.period_start))) ≠ [] →
      (∀ p ∈ db.performances.filter (fun p =>
        p.agent_id == agent.id && decide (t - 365 ≤ p.period_start)),
        p.average_feedback_score ≤ 0) →
      (AgentScoringEngine.extract_features agent listing t db).average_feedback_score = 3.0) := by
  constructor
  · intro h
    simp only [AgentScoringEngine.extract_features, h]
    norm_num
  · intro hne hall
    have hpos : ((db.performances.filter (fun p =>
        p.agent_id == agent.id && decide (t - 365 ≤ p.period_start))).filter
          (fun p => decide (0 < p.average_feedback_score))) = [] := by
      rw [List.filter_eq_nil_iff]
      intro p hp
      simp only [decide_eq_true_eq, not_lt]
      exact hall p hp
    simp only [AgentScoringEngine.extract_features, hpos]
    split_ifs with h1 h2
    · norm_num
    · norm_num
    · simp at h2

/-- Witness for C9 at concrete inputs: an agent with no performance rows at
all gets the neutral defaults, and one whose single row has feedback 0 gets
the 3.0 feedback default. -/
theorem extract_features_neutral_defaults_witness :
    ((AgentScoringEngine.extract_features c9w_agent some_listing 0 c9w_db).total_open_houses_hosted = 0
      ∧ (AgentScoringEngine.extract_features c9w_agent some_listing 0 c9w_db).avg_attendees_per_event = 0
      ∧ (AgentScoringEngine.extract_features c9w_agent some_listing 0 c9w_db).conversion_rate = 0
      ∧ (AgentScoringEngine.extract_features c9w_agent some_listing 0 c9w_db).success_rate = 0
      ∧ (AgentScoringEngine.extract_features c9w_agent some_listing 0 c9w_db).average_feedback_score = 3.0)
    ∧ (AgentScoringEngine.extract_features c9w_agent some_listing 0 c9w2_db).average_feedback_score = 3.0 :=
  ⟨(extract_features_neutral_defaults c9w_agent some_listing 0 c9w_db).1 rfl,
   (extract_features_neutral_defaults c9w_agent some_listing 0 c9w2_db).2
     (by norm_num [c9w2_db, c9w_agent]) (by norm_num [c9w2_db, c9w_agent])⟩

/-- Counterexample for C9 as stated: agent 9 has no performance rows in the
trailing 365-day window [target - 365, target], yet extraction does not
substitute the defaults, because a row dated 10 days after the target
passes the unbounded filter and contributes its 7 hosted open houses. -/
theorem extract_features_future_performance_counterexample :
    (c9c_db.performances.filter (fun p => p.agent_id == c9c_agent.id
        && decide ((0:ℚ) - 365 ≤ p.period_start) && decide (p.period_start ≤ (0:ℚ)))) = []
    ∧ (AgentScoringEngine.extract_features c9c_agent some_listing 0 c9c_db).total_open_houses_hosted = 7
    ∧ (7:ℚ) ≠ 0 := by
  refine ⟨?_, ?_, by norm_num⟩
  · norm_num [c9c_db, c9c_agent]
  · norm_num [AgentScoringEngine.extract_features, c9c_db, c9c_agent, some_listing]

/-! C8. -/

/-- C8 (amended): whenever fewer than 10 labelled training rows exist,
train_model returns the rule-based summary (no error) with training_samples
equal to the number of labelled rows when at least one exists and to 1 when
none exist (a dummy row is substituted); in particular exactly 5 labelled
rows yield the rule-based summary with 5 samples. -/
theorem train_model_insufficient_data :
    (∀ db : DB, (AgentScoringEngine.training_rows db).length < 10 →
      AgentScoringEngine.train_model db
        = AgentScoringEngine.TrainOutcome.rule_based
            (max (AgentScoringEngine.training_rows db).length 1))
    ∧ AgentScoringEngine.train_model c8_db
        = AgentScoringEngine.TrainOutcome.rule_based 5 := by
  have key : ∀ db : DB, (AgentScoringEngine.training_rows db).length < 10 →
      AgentScoringEngine.train_model db
        = AgentScoringEngine.TrainOutcome.rule_based
            (max (AgentScoringEngine.training_rows db).length 1) := by
    intro db h
    unfold AgentScoringEngine.train_model AgentScoringEngine.prepare_training_data
    by_cases he : AgentScoringEngine.training_rows db = []
    · simp [he]
    · rw [if_neg (show ¬((AgentScoringEngine.training_rows db).isEmpty = true) by
        simpa using he), if_pos h]
      have hp : 0 < (AgentScoringEngine.training_rows db).length := List.length_pos.mpr he
      congr 1
      omega
  have h5 : (AgentScoringEngine.training_rows c8_db).length = 5 := by
    norm_num [AgentScoringEngine.training_rows, c8_db, findAgent, c8_agent,
      List.filterMap_cons]
  refine ⟨key, ?_⟩
  rw [key c8_db (by rw [h5]; norm_num), h5]
  norm_num

/-- Witness for C8 at the concrete five-row training set. -/
theorem train_model_insufficient_data_witness :
    (AgentScoringEngine.training_rows c8_db).length < 10
    ∧ AgentScoringEngine.train_model c8_db
        = AgentScoringEngine.TrainOutcome.rule_based
            (max (AgentScoringEngine.training_rows c8_db).length 1) := by
  have h5 : (AgentScoringEngine.training_rows c8_db).length = 5 := by
    norm_num [AgentScoringEngine.training_rows, c8_db, findAgent, c8_agent,
      List.filterMap_cons]
  exact ⟨by rw [h5]; norm_num,
    train_model_insufficient_data.1 c8_db (by rw [h5]; norm_num)⟩

/-- Counterexample for C8 as stated: with zero labelled rows the dummy row
makes train_model report 1 training sample, not 0 (the number of labelled
rows). -/
theorem train_model_zero_rows_counterexample :
    AgentScoringEngine.training_rows c8_empty_db = []
    ∧ AgentScoringEngine.train_model c8_empty_db
        = AgentScoringEngine.TrainOutcome.rule_based 1
    ∧ AgentScoringEngine.train_model c8_empty_db
        ≠ AgentScoringEngine.TrainOutcome.rule_based
            (AgentScoringEngine.training_rows c8_empty_db).length := by
  refine ⟨rfl, rfl, ?_⟩
  intro h
  simp [AgentScoringEngine.train_model, AgentScoringEngine.prepare_training_data,
    AgentScoringEngine.training_rows, c8_empty_db] at h

/-! C4 and C5 helpers: invariants of the three diversity loops. -/

/-- Unfolding equation for diversity_pass2. -/
lemma pass2_def (l acc : List AgentScoreDetails) :
    FairnessService.diversity_pass2 l acc = List.foldl FairnessService.fill_step acc l := rfl

/-- fill_step only appends, so accumulator membership persists. -/
lemma fill_step_mem {acc : List AgentScoreDetails} {x sd : AgentScoreDetails}
    (hx : x ∈ acc) : x ∈ FairnessService.fill_step acc sd := by
  unfold FairnessService.fill_step
  split
  · exact List.mem_append_left _ hx
  · exact hx

/-- fill_step grows the accumulator by at most one, and only below 3. -/
lemma fill_step_length (acc : List AgentScoreDetails) (sd : AgentScoreDetails) :
    (FairnessService.fill_step acc sd).length = acc.length
    ∨ ((FairnessService.fill_step acc sd).length = acc.length + 1 ∧ acc.length < 3) := by
  unfold FairnessService.fill_step
  split
  case isTrue h => right; exact ⟨by simp, h.2⟩
  case isFalse h => left; rfl

/-- Accumulator membership persists through the second pass. -/
lemma foldl_fill_mem_mono : ∀ (l : List AgentScoreDetails) (acc : List AgentScoreDetails),
    ∀ x ∈ acc, x ∈ List.foldl FairnessService.fill_step acc l := by
  intro l
  induction l with
  | nil => intro acc x hx; simpa using hx
  | cons a t ih =>
    intro acc x hx
    rw [List.foldl_cons]
    exact ih _ x (fill_step_mem hx)

/-- The second pass never shrinks the accumulator. -/
lemma foldl_fill_length_mono : ∀ (l : List AgentScoreDetails) (acc : List AgentScoreDetails),
    acc.length ≤ (List.foldl FairnessService.fill_step acc l).length := by
  intro l
  induction l with
  | nil => intro acc; simp
  | cons a t ih =>
    intro acc
    rw [List.foldl_cons]
    have h2 := ih (FairnessService.fill_step acc a)
    rcases fill_step_length acc a with h | ⟨h, _⟩ <;> omega

/-- The second pass keeps the accumulator within max(initial, 3). -/
lemma foldl_fill_length_le : ∀ (l : List AgentScoreDetails) (acc : List AgentScoreDetails),
    (List.foldl FairnessService.fill_step acc l).length ≤ max acc.length 3 := by
  intro l
  induction l with
  | nil => intro acc; simp
  | cons a t ih =>
    intro acc
    rw [List.foldl_cons]
    have h2 := ih (FairnessService.fill_step acc a)
    rcases fill_step_length acc a with h | ⟨h, hlt⟩ <;> omega

/-- The second pass preserves freedom from duplicates. -/
lemma foldl_fill_nodup : ∀ (l : List AgentScoreDetails) (acc : List AgentScoreDetails),
    acc.Nodup → (List.foldl FairnessService.fill_step acc l).Nodup := by
  intro l
  induction l with
  | nil => intro acc h; simpa using h
  | cons a t ih =>
    intro acc h
    rw [List.foldl_cons]
    refine ih _ ?_
    unfold FairnessService.fill_step
    split
    case isTrue hc =>
      rw [List.nodup_append]
      exact ⟨h, List.nodup_singleton a,
        fun x hx hxa => hc.1 (List.mem_singleton.mp hxa ▸ hx)⟩
    case isFalse hc => exact h

/-- Everything in the second-pass result comes from the accumulator or the
candidate list. -/
lemma foldl_fill_subset : ∀ (l : List AgentScoreDetails) (acc : List AgentScoreDetails),
    ∀ x ∈ List.foldl FairnessService.fill_step acc l, x ∈ acc ∨ x ∈ l := by
  intro l
  induction l with
  | nil => intro acc x hx; left; simpa using hx
  | cons a t ih =>
    intro acc x hx
    rw [List.foldl_cons] at hx
    rcases ih _ x hx with h | h
    · unfold FairnessService.fill_step at h
      split at h
      case isTrue hc =>
        rcases List.mem_append.mp h with h' | h'
        · exact Or.inl h'
        · exact Or.inr (List.mem_singleton.mp h' ▸ List.mem_cons_self a t)
      case isFalse hc => exact Or.inl h
    · exact Or.inr (List.mem_cons_of_mem a h)

/-- When the second pass ends below 3 slots, it has swallowed every
candidate. -/
lemma foldl_fill_complete : ∀ (l : List AgentScoreDetails) (acc : List AgentScoreDetails),
    (List.foldl FairnessService.fill_step acc l).length < 3 →
    ∀ x ∈ l, x ∈ List.foldl FairnessService.fill_step acc l := by
  intro l
  induction l with
  | nil => intro acc _ x hx; simp at hx
  | cons a t ih =>
    intro acc hlen x hx
    rw [List.foldl_cons] at hlen ⊢
    rcases List.mem_cons.mp hx with rfl | hxt
    · by_cases hm : x ∈ acc
      · exact foldl_fill_mem_mono t _ x (fill_step_mem hm)
      · by_cases hl : acc.length < 3
        · have hxin : x ∈ FairnessService.fill_step acc x := by
            unfold FairnessService.fill_step
            rw [if_pos ⟨hm, hl⟩]
            exact List.mem_append_right _ (List.mem_singleton.mpr rfl)
          exact foldl_fill_mem_mono t _ x hxin
        · have hmono := foldl_fill_length_mono t (FairnessService.fill_step acc x)
          rcases fill_step_length acc x with he | ⟨he, _⟩ <;> omega
    · exact ih _ hlen x hxt

/-- Invariant of the first diversity pass: starting from a duplicate-free
accumulator of tier-justified entries of length at most 3, the pass keeps
the accumulator duplicate-free, sourced from it or the list, and of length
at most 3. -/
lemma pass1_invariant (db : DB) :
    ∀ (l : List AgentScoreDetails) (d : List AgentScoreDetails) (ts : List String),
    d.Nodup →
    (∀ x ∈ d, ∃ a, findAgent db x.agent_id = some a
      ∧ FairnessService.get_agent_tier a ∈ ts) →
    d.length ≤ 3 →
    ((List.foldl (FairnessService.diversity_step db) (d, ts) l).1.Nodup
      ∧ (∀ x ∈ (List.foldl (FairnessService.diversity_step db) (d, ts) l).1, x ∈ d ∨ x ∈ l)
      ∧ (List.foldl (FairnessService.diversity_step db) (d, ts) l).1.length ≤ 3) := by
  intro l
  induction l with
  | nil =>
    intro d ts h1 h2 h3
    rw [List.foldl_nil]
    exact ⟨h1, fun x hx => Or.inl hx, h3⟩
  | cons a t ih =>
    intro d ts h1 h2 h3
    rw [List.foldl_cons]
    cases hfa : findAgent db a.agent_id with
    | none =>
      have hstep : FairnessService.diversity_step db (d, ts) a = (d, ts) := by
        simp only [FairnessService.diversity_step, hfa]
      rw [hstep]
      obtain ⟨n1, n2, n3⟩ := ih d ts h1 h2 h3
      exact ⟨n1, fun x hx => (n2 x hx).imp id (List.mem_cons_of_mem a), n3⟩
    | some ag =>
      by_cases hc : FairnessService.get_agent_tier ag ∉ ts ∧ d.length < 3
      · have hstep : FairnessService.diversity_step db (d, ts) a
            = (d ++ [a], ts ++ [FairnessService.get_agent_tier ag]) := by
          simp only [FairnessService.diversity_step, hfa]
          rw [if_pos hc]
        rw [hstep]
        have hand : a ∉ d := by
          intro hmem
          obtain ⟨a', hfind, htier⟩ := h2 a hmem
          rw [hfa] at hfind
          injection hfind with hfind
          exact hc.1 (hfind ▸ htier)
        have h1' : (d ++ [a]).Nodup := by
          rw [List.nodup_append]
          exact ⟨h1, List.nodup_singleton a,
            fun x hx hxa => hand (List.mem_singleton.mp hxa ▸ hx)⟩
        have h2' : ∀ x ∈ d ++ [a], ∃ a', findAgent db x.agent_id = some a'
            ∧ FairnessService.get_agent_tier a'
                ∈ ts ++ [FairnessService.get_agent_tier ag] := by
          intro x hx
          rcases List.mem_append.mp hx with hxd | hxa
          · obtain ⟨a', hf, ht⟩ := h2 x hxd
            exact ⟨a', hf, List.mem_append_left _ ht⟩
          · rw [List.mem_singleton.mp hxa]
            exact ⟨ag, hfa, List.mem_append_right _ (List.mem_singleton.mpr rfl)⟩
        have h3' : (d ++ [a]).length ≤ 3 := by
          rw [List.length_append]
          have := hc.2
          simp only [List.length_singleton]
          omega
        obtain ⟨n1, n2, n3⟩ := ih (d ++ [a]) (ts ++ [FairnessService.get_agent_tier ag]) h1' h2' h3'
        refine ⟨n1, fun x hx => ?_, n3⟩
        rcases n2 x hx with hxd | hxt
        · rcases List.mem_append.mp hxd with h' | h'
          · exact Or.inl h'
          · exact Or.inr (List.mem_singleton.mp h' ▸ List.mem_cons_self a t)
        · exact Or.inr (List.mem_cons_of_mem a hxt)
      · have hstep : FairnessService.diversity_step db (d, ts) a = (d, ts) := by
          simp only [FairnessService.diversity_step, hfa]
          rw [if_neg hc]
        rw [hstep]
        obtain ⟨n1, n2, n3⟩ := ih d ts h1 h2 h3
        exact ⟨n1, fun x hx => (n2 x hx).imp id (List.mem_cons_of_mem a), n3⟩

/-- The third loop does nothing once 3 slots are filled, because its
remaining_slots bound is computed once and is then 0. -/
lemma pass3_of_length_three (l d : List AgentScoreDetails) (h : d.length = 3) :
    FairnessService.diversity_pass3 l d = d := by
  have hgen : ∀ (el : List (Nat × AgentScoreDetails)) (acc : List AgentScoreDetails)
      (r : Int), r ≤ 0 →
      List.foldl (fun acc p => if p.2 ∉ acc ∧ (p.1 : Int) < r then acc ++ [p.2] else acc)
        acc el = acc := by
    intro el
    induction el with
    | nil => intro acc r _; rw [List.foldl_nil]
    | cons p t ih =>
      intro acc r hr
      rw [List.foldl_cons, if_neg (fun hcond => absurd hcond.2 (by omega))]
      exact ih acc r hr
  simp only [FairnessService.diversity_pass3]
  exact hgen l.enum d _ (by rw [h]; norm_num)

/-- Entries of a duplicate-free sublist of a list with pairwise-distinct
agent ids again have pairwise-distinct agent ids. -/
lemma pairwise_ids_of_nodup_subset (l : List AgentScoreDetails) :
    ∀ out : List AgentScoreDetails, out.Nodup → (∀ x ∈ out, x ∈ l) →
    l.Pairwise (fun a b => a.agent_id ≠ b.agent_id) →
    out.Pairwise (fun a b => a.agent_id ≠ b.agent_id) := by
  intro out
  induction out with
  | nil => intro _ _ _; exact List.Pairwise.nil
  | cons a t ih =>
    intro hnd hsub h
    rw [List.nodup_cons] at hnd
    refine List.Pairwise.cons ?_ (ih hnd.2 (fun x hx => hsub x (List.mem_cons_of_mem a hx)) h)
    intro b hb
    have hne : a ≠ b := fun he => hnd.1 (he ▸ hb)
    have hsymm : Symmetric (fun x y : AgentScoreDetails => x.agent_id ≠ y.agent_id) :=
      fun x y hxy he => hxy he.symm
    exact h.forall hsymm (hsub a (List.mem_cons_self a t))
      (hsub b (List.mem_cons_of_mem a hb)) hne

/-! C4. -/

/-- C4 (amended): for every candidate list whose entries carry pairwise
distinct agent ids, ensure_diversity returns at most 3 entries, never the
same agent twice, and fewer than 3 entries only when fewer than 3
candidates were supplied. Without the distinctness hypothesis the
duplicate-agent guarantee fails (see the counterexample). -/
theorem ensure_diversity_bounds (db : DB) (l : List AgentScoreDetails)
    (h : l.Pairwise (fun a b => a.agent_id ≠ b.agent_id)) :
    (FairnessService.ensure_diversity_in_recommendations l db).length ≤ 3
    ∧ (FairnessService.ensure_diversity_in_recommendations l db).Pairwise
        (fun a b => a.agent_id ≠ b.agent_id)
    ∧ ((FairnessService.ensure_diversity_in_recommendations l db).length < 3 →
        l.length < 3) := by
  have hnd : l.Nodup := h.imp (fun hab heq => hab (congrArg AgentScoreDetails.agent_id heq))
  unfold FairnessService.ensure_diversity_in_recommendations
  split_ifs with hle
  · exact ⟨hle, h, fun h2 => h2⟩
  · push_neg at hle
    obtain ⟨p1nd, p1sub, p1len⟩ := pass1_invariant db l [] [] List.nodup_nil
      (fun x hx => absurd hx (List.not_mem_nil x)) (by simp)
    have hpass1 : FairnessService.diversity_pass1 db l
        = List.foldl (FairnessService.diversity_step db) ([], []) l := rfl
    rw [hpass1, pass2_def]
    set D := (List.foldl (FairnessService.diversity_step db) ([], []) l).1 with hD
    have h2nodup : (List.foldl FairnessService.fill_step D l).Nodup :=
      foldl_fill_nodup l D p1nd
    have h2len3 : (List.foldl FairnessService.fill_step D l).length = 3 := by
      have hcap := foldl_fill_length_le l D
      by_contra hne
      have hlt : (List.foldl FairnessService.fill_step D l).length < 3 := by omega
      have hsubl : l ⊆ List.foldl FairnessService.fill_step D l :=
        fun x hx => foldl_fill_complete l D hlt x hx
      have := (hnd.subperm hsubl).length_le
      omega
    have h2sub : ∀ x ∈ List.foldl FairnessService.fill_step D l, x ∈ l := by
      intro x hx
      rcases foldl_fill_subset l D x hx with hxd | hxl
      · rcases p1sub x hxd with h' | h'
        · exact absurd h' (List.not_mem_nil x)
        · exact h'
      · exact hxl
    rw [pass3_of_length_three l _ h2len3, List.take_of_length_le (le_of_eq h2len3)]
    exact ⟨le_of_eq h2len3,
      pairwise_ids_of_nodup_subset l _ h2nodup h2sub h,
      fun hlt => absurd h2len3 (by omega)⟩

/-- Witness for C4 at a concrete four-candidate input with distinct agents. -/
theorem ensure_diversity_bounds_witness :
    c4w_list.Pairwise (fun a b => a.agent_id ≠ b.agent_id)
    ∧ ((FairnessService.ensure_diversity_in_recommendations c4w_list c4w_db).length ≤ 3
      ∧ (FairnessService.ensure_diversity_in_recommendations c4w_list c4w_db).Pairwise
          (fun a b => a.agent_id ≠ b.agent_id)
      ∧ ((FairnessService.ensure_diversity_in_recommendations c4w_list c4w_db).length < 3 →
          c4w_list.length < 3)) :=
  ⟨by norm_num [c4w_list, List.pairwise_cons],
   ensure_diversity_bounds c4w_db c4w_list (by norm_num [c4w_list, List.pairwise_cons])⟩

/-- Counterexample for C4 as stated: two distinct candidates naming the same
agent 7 are at most 3, so they are returned as-is and the same agent appears
twice. -/
theorem ensure_diversity_duplicate_agent :
    FairnessService.ensure_diversity_in_recommendations [c4_e1, c4_e2] c4_db = [c4_e1, c4_e2]
    ∧ c4_e1.agent_id = c4_e2.agent_id
    ∧ c4_e1 ≠ c4_e2
    ∧ ¬ (FairnessService.ensure_diversity_in_recommendations [c4_e1, c4_e2] c4_db).Pairwise
        (fun a b => a.agent_id ≠ b.agent_id) := by
  refine ⟨rfl, rfl, ?_, ?_⟩
  · intro he
    simp [c4_e1, c4_e2] at he
  · intro hp
    have hp' : ([c4_e1, c4_e2] : List AgentScoreDetails).Pairwise
        (fun a b => a.agent_id ≠ b.agent_id) := hp
    have h := (List.pairwise_cons.mp hp').1 c4_e2 (List.mem_singleton.mpr rfl)
    exact h rfl

/-! C5. -/

/-- C5 (amended): with exactly three candidates (scores 0.9 junior, 0.8
junior, 0.6 senior), ensure_diversity takes the at-most-3 early return and
hands the list back unchanged in input order; the two diversity passes only
run for more than 3 candidates. -/
theorem ensure_diversity_three_candidates :
    FairnessService.ensure_diversity_in_recommendations [c5_c1, c5_c2, c5_c3] c5_db
      = [c5_c1, c5_c2, c5_c3]
    ∧ FairnessService.get_agent_tier c5_a1 = "junior"
    ∧ FairnessService.get_agent_tier c5_a2 = "junior"
    ∧ FairnessService.get_agent_tier c5_a3 = "senior"
    ∧ [c5_c1, c5_c2, c5_c3].map AgentScoreDetails.score = [0.9, 0.8, 0.6] := by
  exact ⟨rfl, rfl, rfl, rfl, rfl⟩

/-- Counterexample for C5 as stated: the returned slate is not the
pass-reordered [0.9-junior, 0.6-senior, 0.8-junior]. -/
theorem ensure_diversity_three_candidates_not_reordered :
    FairnessService.ensure_diversity_in_recommendations [c5_c1, c5_c2, c5_c3] c5_db
      ≠ [c5_c1, c5_c3, c5_c2] := by
  intro he
  have he' : ([c5_c1, c5_c2, c5_c3] : List AgentScoreDetails) = [c5_c1, c5_c3, c5_c2] := he
  simp [c5_c1, c5_c2, c5_c3] at he'

end OpenPair
